import Mathlib

/-!
Verification of the overnotion block-tree replication core.

This file gives a shallow embedding of the replication, normalization,
batching, pagination and retry logic of `src/lib/client.ts`,
`src/lib/blocks.ts` and `src/lib/errors.ts`, and proves or refutes the
frozen specification claims about them.

Conventions used throughout the embedding:
* JavaScript `undefined` / `null` payload fields become `Option` values.
* Well-typed API payloads are modelled directly (a `content` that the code
  checks with `typeof content === "string"` is a `String` here when the API
  always delivers a string there; fields the code probes defensively and
  that can genuinely be absent stay `Option`).
* The remote service is modelled faithfully for the replication claims:
  a batch-append materialises exactly the requested children, in order,
  and listing a node's children returns them in order.  Pagination and
  adversarial (mismatching) responses are modelled separately where a
  claim is about them.
-/

/-! ## Rich text (client.ts `toRichTextRequest`, `normalizeAnnotations`) -/

/-- The recognized annotation fields (`bold`, `italic`, `strikethrough`,
`underline`, `code` plus a `color` tag).  A field is `none` when it is absent
from the raw object (or not of the recognized primitive type, which the code
treats the same way). -/
structure Annotations where
  bold : Option Bool
  italic : Option Bool
  strikethrough : Option Bool
  underline : Option Bool
  code : Option Bool
  color : Option String
deriving DecidableEq, Repr

/-- The all-absent annotation object (`Object.keys(annotations).length = 0`). -/
def emptyAnnotations : Annotations :=
  ⟨none, none, none, none, none, none⟩

/-- `normalizeAnnotations` of client.ts: absent input gives `undefined`;
otherwise the recognized fields are copied and the result is dropped when no
recognized field was present. -/
def normalizeAnnotations (value : Option Annotations) : Option Annotations :=
  match value with
  | none => none
  | some a => if a = emptyAnnotations then none else some a

/-- A retrieved rich-text run.  `text` and `equation` carry their payloads;
every other run kind (mention, …) is represented by its type tag and its
already-rendered `plain_text` (which the raw object may also lack). -/
inductive RichTextItem where
  | text (content : String) (link : Option String) (annotations : Option Annotations)
  | equation (expression : String) (annotations : Option Annotations)
  | other (kind : String) (plain : Option String) (annotations : Option Annotations)
deriving DecidableEq, Repr

/-- A rich-text run in creation-request shape. -/
inductive RichTextReq where
  | text (content : String) (link : Option String) (annotations : Option Annotations)
  | equation (expression : String) (annotations : Option Annotations)
deriving DecidableEq, Repr

/-- `toRichTextRequest` of client.ts: the `for` loop over the raw array,
pushing converted runs and skipping (`continue`) the rest. -/
def toRichTextRequest : List RichTextItem → List RichTextReq
  | [] => []
  | RichTextItem.text content link ann :: rest =>
      RichTextReq.text content link (normalizeAnnotations ann) :: toRichTextRequest rest
  | RichTextItem.equation expr ann :: rest =>
      RichTextReq.equation expr (normalizeAnnotations ann) :: toRichTextRequest rest
  | RichTextItem.other _ plain _ :: rest =>
      match plain with
      | some s =>
          if 0 < s.length then RichTextReq.text s none none :: toRichTextRequest rest
          else toRichTextRequest rest
      | none => toRichTextRequest rest

/-! ## Media payloads (client.ts `normalizeMediaBlock`) -/

/-- The fields of a retrieved media payload that `normalizeMediaBlock` reads:
`external.url` (present iff the media is externally hosted), `file.url`
(present iff it is hosted by the document service itself), the caption and the
file name. -/
structure MediaPayload where
  external_url : Option String
  file_url : Option String
  caption : List RichTextItem
  name : Option String
deriving DecidableEq, Repr

/-- Result of media normalization: either the empty payload (`{}`) or an
external-URL payload. -/
inductive MediaNormalized where
  | empty
  | externalPayload (url : String) (caption : Option (List RichTextReq)) (name : Option String)
deriving DecidableEq, Repr

/-- The `externalUrl` selection of `normalizeMediaBlock`:
`typeof external?.url === "string" ? external.url : typeof file?.url === "string" ? file.url : undefined`.
An external URL wins whenever it is present as a string — even the empty
string — so in that case there is never a fallback to the file URL. -/
def selectedMediaUrl (v : MediaPayload) : Option String :=
  match v.external_url with
  | some u => some u
  | none => v.file_url

/-- `normalizeMediaBlock` of client.ts: select `external.url`, else
`file.url`; the `if (!externalUrl) return {};` guard is JS truthiness, so
both an absent and an empty-string selected URL give the empty payload;
otherwise build an external payload, attaching the caption when non-empty
and the name when a non-empty string. -/
def normalizeMediaBlock (value : Option MediaPayload) : MediaNormalized :=
  match value with
  | none => MediaNormalized.empty
  | some v =>
      match selectedMediaUrl v with
      | none => MediaNormalized.empty
      | some url =>
          if url.isEmpty then MediaNormalized.empty
          else
            let caption := toRichTextRequest v.caption
            MediaNormalized.externalPayload url
              (if 0 < caption.length then some caption else none)
              (match v.name with
               | some n => if 0 < n.length then some n else none
               | none => none)

/-! ## Icons, links, synced blocks (client.ts helpers) -/

/-- A retrieved icon object as probed by `normalizeCalloutIcon`. -/
inductive IconResp where
  | emoji (emoji : Option String)
  | external (url : Option String)
  | custom_emoji (id : Option String) (name : Option String) (url : Option String)
  | otherIcon (tag : String)
deriving DecidableEq, Repr

/-- An icon in creation-request shape. -/
inductive IconReq where
  | emoji (emoji : String)
  | external (url : String)
  | custom_emoji (id : String) (name : Option String) (url : Option String)
deriving DecidableEq, Repr

/-- `normalizeCalloutIcon` of client.ts. -/
def normalizeCalloutIcon (icon : Option IconResp) : Option IconReq :=
  match icon with
  | none => none
  | some (IconResp.emoji e) =>
      match e with
      | some s => some (IconReq.emoji s)
      | none => none
  | some (IconResp.external u) =>
      match u with
      | some s => some (IconReq.external s)
      | none => none
  | some (IconResp.custom_emoji id name url) =>
      match id with
      | some i => some (IconReq.custom_emoji i name url)
      | none => none
  | some (IconResp.otherIcon _) => none

/-- A retrieved `link_to_page` payload as probed by `normalizeLinkToPage`. -/
structure LinkPayload where
  type : Option String
  page_id : Option String
  database_id : Option String
  comment_id : Option String
deriving DecidableEq, Repr

/-- A `link_to_page` payload in creation-request shape (`{}` when the type tag
is unrecognized). -/
inductive LinkToPageReq where
  | page (id : Option String)
  | database (id : Option String)
  | comment (id : Option String)
  | empty
deriving DecidableEq, Repr

/-- `normalizeLinkToPage` of client.ts. -/
def normalizeLinkToPage (value : Option LinkPayload) : LinkToPageReq :=
  match value with
  | none => LinkToPageReq.empty
  | some v =>
      if v.type = some ("page_id") then LinkToPageReq.page v.page_id
      else if v.type = some ("database_id") then LinkToPageReq.database v.database_id
      else if v.type = some ("comment_id") then LinkToPageReq.comment v.comment_id
      else LinkToPageReq.empty

/-- The `synced_from` object of a retrieved synced block. -/
structure SyncedFrom where
  block_id : Option String
deriving DecidableEq, Repr

/-- A retrieved `synced_block` payload. -/
structure SyncedPayload where
  synced_from : Option SyncedFrom
deriving DecidableEq, Repr

/-- `normalizeSyncedBlock` of client.ts: the resulting `synced_from` field —
`some id` for `{ synced_from: { type: "block_id", block_id: id } }` and `none`
for `{ synced_from: null }`. -/
def normalizeSyncedBlock (value : Option SyncedPayload) : Option String :=
  match value with
  | none => none
  | some p =>
      match p.synced_from with
      | none => none
      | some sf =>
          match sf.block_id with
          | some bid => if 0 < bid.length then some bid else none
          | none => none

/-! ## Block data model (retrieved blocks, `BlockObjectResponse`) -/

/-- Heading levels (`heading_1`, `heading_2`, `heading_3`). -/
inductive HeadingLevel where
  | h1
  | h2
  | h3
deriving DecidableEq, Repr

/-- The block kinds that share the `rich_text` and `color` shape in the
`blockToCreateRequest` switch. -/
inductive BasicTextKind where
  | bulleted_list_item
  | numbered_list_item
  | quote
  | toggle
  | template
deriving DecidableEq, Repr

/-- `embed` / `bookmark` (url plus caption). -/
inductive EmbedKind where
  | embed
  | bookmark
deriving DecidableEq, Repr

/-- The media block kinds. -/
inductive MediaKind where
  | image
  | video
  | pdf
  | file
  | audio
deriving DecidableEq, Repr

/-- A retrieved table payload (`block.table`). -/
structure TablePayload where
  table_width : Option Nat
  has_column_header : Option Bool
  has_row_header : Option Bool
deriving DecidableEq, Repr

/-- The type tag and type-specific payload of a retrieved block.  Each
constructor corresponds to a `case` group of `blockToCreateRequest`;
`unsupportedOther` carries the raw type string of any block kind that the
switch does not name (including the literal `unsupported` kind). -/
inductive BlockData where
  | paragraph (rich_text : List RichTextItem) (color : Option String)
  | heading (level : HeadingLevel) (rich_text : List RichTextItem)
      (color : Option String) (is_toggleable : Option Bool)
  | basicText (kind : BasicTextKind) (rich_text : List RichTextItem) (color : Option String)
  | to_do (rich_text : List RichTextItem) (color : Option String) (checked : Option Bool)
  | callout (rich_text : List RichTextItem) (color : Option String) (icon : Option IconResp)
  | code (rich_text : List RichTextItem) (language : Option String)
      (caption : List RichTextItem)
  | equation (expression : Option String)
  | divider
  | breadcrumb
  | table_of_contents (color : Option String)
  | embedLike (kind : EmbedKind) (url : Option String) (caption : List RichTextItem)
  | link_to_page (payload : Option LinkPayload)
  | media (kind : MediaKind) (payload : Option MediaPayload)
  | table (payload : Option TablePayload)
  | table_row (cells : Option (List (List RichTextItem)))
  | column_list
  | column
  | synced_block (payload : Option SyncedPayload)
  | child_page
  | child_database
  | unsupportedOther (tag : String)
deriving DecidableEq, Repr

/-- The raw `type` string of a retrieved block. -/
def BlockData.typeTag : BlockData → String
  | BlockData.paragraph _ _ => "paragraph"
  | BlockData.heading HeadingLevel.h1 _ _ _ => "heading_1"
  | BlockData.heading HeadingLevel.h2 _ _ _ => "heading_2"
  | BlockData.heading HeadingLevel.h3 _ _ _ => "heading_3"
  | BlockData.basicText BasicTextKind.bulleted_list_item _ _ => "bulleted_list_item"
  | BlockData.basicText BasicTextKind.numbered_list_item _ _ => "numbered_list_item"
  | BlockData.basicText BasicTextKind.quote _ _ => "quote"
  | BlockData.basicText BasicTextKind.toggle _ _ => "toggle"
  | BlockData.basicText BasicTextKind.template _ _ => "template"
  | BlockData.to_do _ _ _ => "to_do"
  | BlockData.callout _ _ _ => "callout"
  | BlockData.code _ _ _ => "code"
  | BlockData.equation _ => "equation"
  | BlockData.divider => "divider"
  | BlockData.breadcrumb => "breadcrumb"
  | BlockData.table_of_contents _ => "table_of_contents"
  | BlockData.embedLike EmbedKind.embed _ _ => "embed"
  | BlockData.embedLike EmbedKind.bookmark _ _ => "bookmark"
  | BlockData.link_to_page _ => "link_to_page"
  | BlockData.media MediaKind.image _ => "image"
  | BlockData.media MediaKind.video _ => "video"
  | BlockData.media MediaKind.pdf _ => "pdf"
  | BlockData.media MediaKind.file _ => "file"
  | BlockData.media MediaKind.audio _ => "audio"
  | BlockData.table _ => "table"
  | BlockData.table_row _ => "table_row"
  | BlockData.column_list => "column_list"
  | BlockData.column => "column"
  | BlockData.synced_block _ => "synced_block"
  | BlockData.child_page => "child_page"
  | BlockData.child_database => "child_database"
  | BlockData.unsupportedOther tag => tag

/-- A retrieved block node: identifier, payload, the `has_children` flag, and
the ordered direct children that draining its child listing yields.  (The
remote system owns the source tree; listing a node returns `children` in
order.) -/
inductive SrcBlock where
  | mk (id : String) (data : BlockData) (has_children : Bool) (children : List SrcBlock)

/-- The identifier of a source block. -/
def SrcBlock.id : SrcBlock → String
  | SrcBlock.mk i _ _ _ => i

/-- The payload of a source block. -/
def SrcBlock.data : SrcBlock → BlockData
  | SrcBlock.mk _ d _ _ => d

/-- The `has_children` flag of a source block. -/
def SrcBlock.has_children : SrcBlock → Bool
  | SrcBlock.mk _ _ h _ => h

/-- The listed direct children of a source block. -/
def SrcBlock.children : SrcBlock → List SrcBlock
  | SrcBlock.mk _ _ _ cs => cs

/-! ## Creation requests (`BlockObjectRequest`) -/

/-- A block creation request, as produced by `blockToCreateRequest` and the
container request builders.  `table` embeds its initial row requests;
`column_list` carries the number of empty `column` placeholder children of
the request (`createColumnListRequest`). -/
inductive BlockReq where
  | paragraph (rich_text : List RichTextReq) (color : Option String)
  | heading (level : HeadingLevel) (rich_text : List RichTextReq)
      (color : Option String) (is_toggleable : Option Bool)
  | basicText (kind : BasicTextKind) (rich_text : List RichTextReq) (color : Option String)
  | to_do (rich_text : List RichTextReq) (color : Option String) (checked : Option Bool)
  | callout (rich_text : List RichTextReq) (color : Option String) (icon : Option IconReq)
  | code (rich_text : List RichTextReq) (language : Option String)
      (caption : List RichTextReq)
  | equation (expression : Option String)
  | divider
  | breadcrumb
  | table_of_contents (color : Option String)
  | embedLike (kind : EmbedKind) (url : Option String) (caption : List RichTextReq)
  | link_to_page (target : LinkToPageReq)
  | media (kind : MediaKind) (payload : MediaNormalized)
  | synced_block (synced_from : Option String)
  | table (width : Nat) (has_column_header : Option Bool) (has_row_header : Option Bool)
      (children : List BlockReq)
  | table_row (cells : List (List RichTextReq))
  | column_list (columns : Nat)
  | column

/-- `placeholderBlock` of client.ts: a paragraph holding one plain text run
with the given message. -/
def placeholderBlock (message : String) : BlockReq :=
  BlockReq.paragraph [RichTextReq.text message none none] none

/-- The `safeCount` computation of `createColumnListRequest`. -/
def safeColumnCount (columnCount : Nat) : Nat :=
  if 0 < columnCount then columnCount else 2

/-- `createColumnListRequest` of client.ts: an empty column-list request with
`safeCount` empty column placeholders. -/
def createColumnListRequest (columnCount : Nat) : BlockReq :=
  BlockReq.column_list (safeColumnCount columnCount)

/-- `Array.isArray(raw?.cells) ? cells.map(toRichTextRequest) : []`. -/
def tableRowCells (cells : Option (List (List RichTextItem))) : List (List RichTextReq) :=
  match cells with
  | some cs => cs.map toRichTextRequest
  | none => []

/-- `tableRowToRequest` of client.ts (the fallback `[]` covers a block whose
payload is not a table-row payload). -/
def tableRowToRequest (d : BlockData) : BlockReq :=
  match d with
  | BlockData.table_row cells => BlockReq.table_row (tableRowCells cells)
  | _ => BlockReq.table_row []

/-- Whether a retrieved block payload is a `table_row` payload. -/
def isTableRowData : BlockData → Bool
  | BlockData.table_row _ => true
  | _ => false

/-- The `tableWidth` computation of `createTableRequest`: `table?.table_width`
when a positive number, else 1. -/
def tableWidthOf (d : BlockData) : Nat :=
  match d with
  | BlockData.table (some t) =>
      match t.table_width with
      | some w => if 0 < w then w else 1
      | none => 1
  | _ => 1

/-- `table?.has_column_header`. -/
def tableHasColumnHeader (d : BlockData) : Option Bool :=
  match d with
  | BlockData.table (some t) => t.has_column_header
  | _ => none

/-- `table?.has_row_header`. -/
def tableHasRowHeader (d : BlockData) : Option Bool :=
  match d with
  | BlockData.table (some t) => t.has_row_header
  | _ => none

/-- `emptyTableRowRequest` of client.ts: a row of `width` empty cells. -/
def emptyTableRowRequest (tableWidth : Nat) : BlockReq :=
  BlockReq.table_row (List.replicate (if 0 < tableWidth then tableWidth else 1) [])

/-- The `initialRow` of `createTableRequest`: the first source row converted
when it is a table row, else a synthesized empty row of the table's width. -/
def tableInitialRowReq (d : BlockData) (firstRow : Option SrcBlock) : BlockReq :=
  match firstRow with
  | some r =>
      if isTableRowData r.data then tableRowToRequest r.data
      else emptyTableRowRequest (tableWidthOf d)
  | none => emptyTableRowRequest (tableWidthOf d)

/-- `createTableRequest` of client.ts: one table request of the source's
width and header flags, embedding exactly one initial row. -/
def createTableRequest (d : BlockData) (firstRow : Option SrcBlock) : BlockReq :=
  BlockReq.table (tableWidthOf d) (tableHasColumnHeader d) (tableHasRowHeader d)
    [tableInitialRowReq d firstRow]

/-- `blockToCreateRequest` of client.ts: the big `switch` on the type tag.
Unsupported kinds (`child_page`, `child_database`, `unsupported` and every
tag the switch does not name, including stray `table_row` / `column` blocks)
fall to the placeholder. -/
def blockToCreateRequest (d : BlockData) : BlockReq :=
  match d with
  | BlockData.paragraph rt color => BlockReq.paragraph (toRichTextRequest rt) color
  | BlockData.heading lvl rt color tog =>
      BlockReq.heading lvl (toRichTextRequest rt) color tog
  | BlockData.basicText kind rt color =>
      BlockReq.basicText kind (toRichTextRequest rt) color
  | BlockData.to_do rt color checked =>
      BlockReq.to_do (toRichTextRequest rt) color checked
  | BlockData.callout rt color icon =>
      BlockReq.callout (toRichTextRequest rt) color (normalizeCalloutIcon icon)
  | BlockData.code rt lang caption =>
      BlockReq.code (toRichTextRequest rt) lang (toRichTextRequest caption)
  | BlockData.equation expr => BlockReq.equation expr
  | BlockData.divider => BlockReq.divider
  | BlockData.breadcrumb => BlockReq.breadcrumb
  | BlockData.table_of_contents color => BlockReq.table_of_contents color
  | BlockData.embedLike kind url caption =>
      BlockReq.embedLike kind url (toRichTextRequest caption)
  | BlockData.link_to_page payload => BlockReq.link_to_page (normalizeLinkToPage payload)
  | BlockData.media kind payload => BlockReq.media kind (normalizeMediaBlock payload)
  | BlockData.table _ => createTableRequest d none
  | BlockData.column_list => createColumnListRequest 2
  | BlockData.synced_block payload => BlockReq.synced_block (normalizeSyncedBlock payload)
  | BlockData.table_row _ =>
      placeholderBlock ("Unsupported block type: " ++ BlockData.typeTag d)
  | BlockData.column =>
      placeholderBlock ("Unsupported block type: " ++ BlockData.typeTag d)
  | BlockData.child_page =>
      placeholderBlock ("Unsupported block type: " ++ BlockData.typeTag d)
  | BlockData.child_database =>
      placeholderBlock ("Unsupported block type: " ++ BlockData.typeTag d)
  | BlockData.unsupportedOther _ =>
      placeholderBlock ("Unsupported block type: " ++ BlockData.typeTag d)

/-! ## Chunking (`for (let i = 0; i < xs.length; i += B) xs.slice(i, i + B)`) -/

/-- The stride-`B` slicing loop shared by the flush of `copyBlockTree`, the
table-row appends of `copyTableContents` and
`appendBlockChildrenInBatches`: successive contiguous slices of size `B`.
(For an empty input the loop body never runs.  The loop requires `B ≥ 1`,
which every caller guarantees — `parseBatchSize` rejects other values and the
replication paths use the constant 50.) -/
def chunksOf (batchSize : Nat) : List α → List (List α)
  | [] => []
  | x :: xs =>
      (x :: xs.take (batchSize - 1)) :: chunksOf batchSize (xs.drop (batchSize - 1))
termination_by l => l.length
decreasing_by
  simp only [List.length_cons, List.length_drop]
  omega

/-- Concatenating the chunks, in order, restores the original list. -/
theorem chunksOf_flatten_bounded (batchSize : Nat) :
    ∀ (n : Nat) (l : List α), l.length ≤ n → (chunksOf batchSize l).flatten = l := by
  intro n
  induction n with
  | zero =>
      intro l h
      have hl : l = [] := by
        cases l with
        | nil => rfl
        | cons x xs => simp at h
      subst hl
      simp [chunksOf]
  | succ n ih =>
      intro l h
      cases l with
      | nil => simp [chunksOf]
      | cons x xs =>
          rw [chunksOf]
          simp only [List.flatten_cons]
          rw [ih (xs.drop (batchSize - 1)) (by simp at h ⊢; omega)]
          simp [List.cons_append, List.take_append_drop]

/-- Concatenating the chunks, in order, restores the original list. -/
theorem chunksOf_flatten (batchSize : Nat) (l : List α) :
    (chunksOf batchSize l).flatten = l :=
  chunksOf_flatten_bounded batchSize l.length l le_rfl

/-- Every chunk is non-empty and holds at most `B` elements. -/
theorem chunksOf_size_bounded (batchSize : Nat) (hB : 1 ≤ batchSize) :
    ∀ (n : Nat) (l : List α), l.length ≤ n →
      ∀ c ∈ chunksOf batchSize l, 0 < c.length ∧ c.length ≤ batchSize := by
  intro n
  induction n with
  | zero =>
      intro l h c hc
      cases l with
      | nil => simp [chunksOf] at hc
      | cons x xs => simp at h
  | succ n ih =>
      intro l h c hc
      cases l with
      | nil => simp [chunksOf] at hc
      | cons x xs =>
          rw [chunksOf] at hc
          rcases List.mem_cons.mp hc with h1 | h2
          · subst h1
            constructor
            · simp
            · have := List.length_take_le (batchSize - 1) xs
              simp only [List.length_cons]
              omega
          · exact ih (xs.drop (batchSize - 1)) (by simp at h ⊢; omega) c h2

/-- The number of chunks is `⌈N / B⌉`. -/
theorem chunksOf_length_bounded (batchSize : Nat) (hB : 1 ≤ batchSize) :
    ∀ (n : Nat) (l : List α), l.length ≤ n →
      (chunksOf batchSize l).length = (l.length + batchSize - 1) / batchSize := by
  intro n
  induction n with
  | zero =>
      intro l h
      have hl : l = [] := by
        cases l with
        | nil => rfl
        | cons x xs => simp at h
      subst hl
      simp [chunksOf]
      have := Nat.div_eq_of_lt (show batchSize - 1 < batchSize by omega)
      omega
  | succ n ih =>
      intro l h
      cases l with
      | nil =>
          simp [chunksOf]
          have := Nat.div_eq_of_lt (show batchSize - 1 < batchSize by omega)
          omega
      | cons x xs =>
          rw [chunksOf]
          simp only [List.length_cons]
          rw [ih (xs.drop (batchSize - 1)) (by simp at h ⊢; omega)]
          simp only [List.length_drop]
          rcases Nat.lt_or_ge xs.length (batchSize - 1) with hlt | hge
          · have h1 : xs.length - (batchSize - 1) = 0 := by omega
            rw [h1]
            have h2 : (0 + batchSize - 1) / batchSize = 0 :=
              Nat.div_eq_of_lt (by omega)
            rw [h2]
            have h3 : xs.length + 1 + batchSize - 1 = xs.length + batchSize := by omega
            rw [h3]
            have h4 : (xs.length + batchSize) / batchSize = 1 := by
              rw [Nat.add_div_right _ (by omega)]
              rw [Nat.div_eq_of_lt (by omega)]
            omega
          · have h1 : xs.length - (batchSize - 1) + batchSize - 1 = xs.length := by omega
            have h2 : xs.length + 1 + batchSize - 1 = xs.length + batchSize := by omega
            rw [h1, h2, Nat.add_div_right _ (by omega)]

/-! ## Target nodes and the replication algorithm (`copyBlockTree`) -/

/-- A created target node: the creation request that produced it and, below
it, the ordered children it ends up with (children created as part of the
request — the empty columns of a column-list request, the embedded initial
table row — together with everything later appended or recursed into it). -/
inductive TgtNode where
  | mk (req : BlockReq) (children : List TgtNode)

/-- The creation request of a target node. -/
def TgtNode.req : TgtNode → BlockReq
  | TgtNode.mk r _ => r

/-- The children of a target node. -/
def TgtNode.children : TgtNode → List TgtNode
  | TgtNode.mk _ cs => cs

/-- The container guard of the `copyBlockTree` walk:
`type === "column_list" || type === "table"`. -/
def isContainerData : BlockData → Bool
  | BlockData.column_list => true
  | BlockData.table _ => true
  | _ => false

/-- Size helpers for the recursion measure of the copy functions. -/
theorem sizeOf_list_append_singleton {α : Type} [SizeOf α] (l : List α) (b : α) :
    sizeOf (l ++ [b]) = sizeOf l + sizeOf b + 1 := by
  induction l with
  | nil => simp <;> omega
  | cons x xs ih => simp [ih] <;> omega

theorem sizeOf_list_drop_le {α : Type} [SizeOf α] :
    ∀ (l : List α) (n : Nat), sizeOf (l.drop n) ≤ sizeOf l := by
  intro l
  induction l with
  | nil => intro n; cases n <;> simp
  | cons x xs ih =>
      intro n
      cases n with
      | zero => simp
      | succ m =>
          have := ih m
          simp only [List.drop_succ_cons]
          simp only [List.cons.sizeOf_spec]
          omega

theorem one_le_sizeOf_blockData (d : BlockData) : 1 ≤ sizeOf d := by
  cases d <;> simp <;> omega

theorem one_le_sizeOf_srcBlock (b : SrcBlock) : 1 ≤ sizeOf b := by
  cases b with
  | mk i d h cs => simp; omega

theorem sizeOf_srcBlock_children_lt (b : SrcBlock) :
    sizeOf (SrcBlock.children b) + 1 < sizeOf b := by
  cases b with
  | mk i d h cs =>
      have := one_le_sizeOf_blockData d
      simp [SrcBlock.children]
      omega

/-- `copyTableContents` of client.ts, as the table node it builds: drain the
source table's rows (keeping only `table_row` children), create the table in
one call embedding the first row (a synthesized empty row when there is
none), then append the remaining rows to the created table's identifier in
slices of 50 (`if (sourceRows.length <= 1) return;` is the empty-chunk
case). -/
def copyTableNode (b : SrcBlock) : TgtNode :=
  let sourceRows := b.children.filter fun c => isTableRowData c.data
  TgtNode.mk (createTableRequest b.data sourceRows.head?)
    (TgtNode.mk (tableInitialRowReq b.data sourceRows.head?) [] ::
      ((chunksOf 50 (sourceRows.drop 1)).map fun batch =>
        batch.map fun r => TgtNode.mk (tableRowToRequest r.data) []).flatten)

mutual

/-- `copyBlockTree` of client.ts, as the ordered forest of target children it
creates under the target parent: walk the drained source children with an
empty pending buffer. -/
def copyBlockTree (cs : List SrcBlock) : List TgtNode :=
  copyGo cs []
termination_by (sizeOf cs + 1, cs.length + 1)
decreasing_by
  apply Prod.Lex.right
  omega

/-- The `for (const sourceBlock of sourceChildren)` walk of `copyBlockTree`:
non-container children are buffered into `pending`; a container child forces
a flush of the buffer, is handled specially, and the walk continues with an
empty buffer; the trailing flush empties what remains. -/
def copyGo : List SrcBlock → List SrcBlock → List TgtNode
  | [], pending => flushBatches pending
  | b :: rest, pending =>
      if isContainerData b.data then
        flushBatches pending ++ copyContainer b ++ copyGo rest []
      else
        copyGo rest (pending ++ [b])
termination_by l pending => (sizeOf l + sizeOf pending, l.length)
decreasing_by
  · apply Prod.Lex.left
    simp <;> omega
  · apply Prod.Lex.left
    have h1 := one_le_sizeOf_srcBlock b
    simp <;> omega
  · apply Prod.Lex.left
    have h1 := one_le_sizeOf_srcBlock b
    simp <;> omega
  · apply Prod.Lex.left
    have h1 := one_le_sizeOf_srcBlock b
    simp <;> omega
  · have heq : sizeOf rest + sizeOf (pending ++ [b]) = sizeOf (b :: rest) + sizeOf pending := by
      rw [sizeOf_list_append_singleton]
      simp <;> omega
    rw [heq]
    apply Prod.Lex.right
    simp <;> omega

/-- The `flush` closure of `copyBlockTree`: append the buffered blocks in
slices of 50; each slice's created results are, positionally, the converted
blocks of the slice (the per-element conversion and recursion is
`copyOne`). -/
def flushBatches : List SrcBlock → List TgtNode
  | [] => []
  | b :: bs =>
      (((b :: bs).take 50).attach.map fun x => copyOne x.1) ++
        flushBatches (bs.drop 49)
termination_by pending => (sizeOf pending, 0)
decreasing_by
  · apply Prod.Lex.left
    have h1 := List.sizeOf_lt_of_mem (List.take_subset 50 (b :: bs) x.2)
    omega
  · apply Prod.Lex.left
    have h1 := sizeOf_list_drop_le bs 49
    simp
    omega

/-- One batched-created child: its creation request is
`blockToCreateRequest`, and when the source block reported nested content the
walk recurses with the created block as the new target parent. -/
def copyOne (b : SrcBlock) : TgtNode :=
  TgtNode.mk (blockToCreateRequest b.data)
    (if b.has_children then copyBlockTree b.children else [])
termination_by (sizeOf b, 0)
decreasing_by
  apply Prod.Lex.left
  have h1 := sizeOf_srcBlock_children_lt b
  omega

/-- The special-cased container handling of the `copyBlockTree` walk.
For a table: `copyTableContents`.  For a column list: drain the source
column-list's children, create one column-list request whose column count is
their number (2 when none were listed), then — `copyColumnListContents` —
pair the source children with the created columns strictly by position
(`min` of the two counts) and recurse each source column's children into the
matching created column; created columns beyond the pairing stay empty.
(The catch-all is unreachable: the walk only calls this on containers.) -/
def copyContainer (b : SrcBlock) : List TgtNode :=
  match b.data with
  | BlockData.table _ => [copyTableNode b]
  | BlockData.column_list =>
      let cols := b.children
      let columnCount := if 0 < cols.length then cols.length else 2
      let pairs := min cols.length (safeColumnCount columnCount)
      [TgtNode.mk (createColumnListRequest columnCount)
        (((cols.take pairs).attach.map fun x => copyColumnNode x.1) ++
          List.replicate (safeColumnCount columnCount - pairs)
            (TgtNode.mk BlockReq.column []))]
  | _ => []
termination_by (sizeOf b, 0)
decreasing_by
  apply Prod.Lex.left
  have h1 := List.sizeOf_lt_of_mem
    (List.take_subset (min b.children.length (safeColumnCount (if 0 < b.children.length then b.children.length else 2))) b.children x.2)
  have h3 := sizeOf_srcBlock_children_lt b
  omega

/-- One paired column of `copyColumnListContents`: the created empty column
(request `{ column: { children: [] } }`), filled by recursing into the
matching source child's own children. -/
def copyColumnNode (c : SrcBlock) : TgtNode :=
  TgtNode.mk BlockReq.column (copyBlockTree c.children)
termination_by (sizeOf c, 0)
decreasing_by
  apply Prod.Lex.left
  have h1 := sizeOf_srcBlock_children_lt c
  omega

end

/-! ## Per-child correspondence (claim C1) -/

/-- The creation request that the walk issues, at top level, for one source
child: container children get their bespoke container request
(`createColumnListRequest` with the drained column count resp.
`createTableRequest` with the drained first row), every other child goes
through `blockToCreateRequest` — which recreates it or degrades it to its
placeholder. -/
def expectedTopRequest (b : SrcBlock) : BlockReq :=
  match b.data with
  | BlockData.column_list =>
      createColumnListRequest
        (if 0 < b.children.length then b.children.length else 2)
  | BlockData.table _ =>
      createTableRequest b.data
        ((b.children.filter fun c => isTableRowData c.data).head?)
  | _ => blockToCreateRequest b.data

theorem expectedTopRequest_of_not_container (b : SrcBlock)
    (h : isContainerData b.data = false) :
    expectedTopRequest b = blockToCreateRequest b.data := by
  cases hb : b.data <;>
    simp [expectedTopRequest, isContainerData, hb] at h ⊢

theorem copyOne_req (b : SrcBlock) :
    (copyOne b).req = blockToCreateRequest b.data := by
  rw [copyOne]
  rfl

theorem flushBatches_eq_map_bounded :
    ∀ (n : Nat) (l : List SrcBlock), l.length ≤ n →
      flushBatches l = l.map copyOne := by
  intro n
  induction n with
  | zero =>
      intro l h
      have hl : l = [] := by
        cases l with
        | nil => rfl
        | cons x xs => simp at h
      subst hl
      rw [flushBatches]
      rfl
  | succ n ih =>
      intro l h
      cases l with
      | nil =>
          rw [flushBatches]
          rfl
      | cons b bs =>
          rw [flushBatches]
          rw [List.attach_map_val ((b :: bs).take 50) copyOne]
          rw [ih (bs.drop 49) (by simp at h ⊢; omega)]
          have hdrop : bs.drop 49 = (b :: bs).drop 50 := rfl
          rw [hdrop, ← List.map_append, List.take_append_drop]

theorem flushBatches_eq_map (l : List SrcBlock) :
    flushBatches l = l.map copyOne :=
  flushBatches_eq_map_bounded l.length l le_rfl

theorem copyContainer_req (b : SrcBlock) (h : isContainerData b.data = true) :
    (copyContainer b).map TgtNode.req = [expectedTopRequest b] := by
  rw [copyContainer.eq_def]
  cases hb : b.data <;> simp [isContainerData, hb] at h ⊢ <;>
    simp [expectedTopRequest, hb, copyTableNode, TgtNode.req]

theorem copyGo_req (l : List SrcBlock) :
    ∀ pending : List SrcBlock,
      (copyGo l pending).map TgtNode.req =
        pending.map (fun b => blockToCreateRequest b.data) ++ l.map expectedTopRequest := by
  induction l with
  | nil =>
      intro pending
      rw [copyGo, flushBatches_eq_map]
      simp [copyOne_req]
  | cons b rest ih =>
      intro pending
      rw [copyGo]
      by_cases hc : isContainerData b.data = true
      · rw [if_pos hc]
        simp only [List.map_append]
        rw [flushBatches_eq_map, copyContainer_req b hc, ih []]
        simp [copyOne_req]
      · rw [if_neg hc]
        rw [ih (pending ++ [b])]
        have hb : isContainerData b.data = false := by
          cases hcc : isContainerData b.data
          · rfl
          · exact absurd hcc hc
        simp [expectedTopRequest_of_not_container b hb]

/-- C1: for every source node with N listed direct children, the walk creates
exactly N children under the target parent, in listing order, the i-th being
the recreated block (or its placeholder, or its bespoke container request)
of the i-th source child. -/
theorem claim1_copy_creates_all_children_in_order (cs : List SrcBlock) :
    (copyBlockTree cs).length = cs.length ∧
    (copyBlockTree cs).map TgtNode.req = cs.map expectedTopRequest := by
  rw [copyBlockTree]
  have h := copyGo_req cs []
  simp only [List.map_nil, List.nil_append] at h
  refine ⟨?_, h⟩
  have hlen := congrArg List.length h
  simpa using hlen

/-! ## Column lists (claim C2) -/

theorem safeColumnCount_of_pos {n : Nat} (h : 0 < n) : safeColumnCount n = n := by
  simp [safeColumnCount, h]

theorem copyColumnNode_req (c : SrcBlock) :
    (copyColumnNode c).req = BlockReq.column := by
  rw [copyColumnNode]
  rfl

theorem copyColumnNode_children (c : SrcBlock) :
    (copyColumnNode c).children = copyBlockTree c.children := by
  rw [copyColumnNode]
  rfl

theorem copyContainer_column_list (b : SrcBlock)
    (hb : b.data = BlockData.column_list) :
    copyContainer b =
      [TgtNode.mk
        (createColumnListRequest (if 0 < b.children.length then b.children.length else 2))
        (((b.children.take
              (min b.children.length
                (safeColumnCount
                  (if 0 < b.children.length then b.children.length else 2)))).map
            copyColumnNode) ++
          List.replicate
            (safeColumnCount (if 0 < b.children.length then b.children.length else 2) -
              min b.children.length
                (safeColumnCount (if 0 < b.children.length then b.children.length else 2)))
            (TgtNode.mk BlockReq.column []))] := by
  rw [copyContainer.eq_def, hb]
  rw [← List.attach_map_val
    (b.children.take
      (min b.children.length
        (safeColumnCount (if 0 < b.children.length then b.children.length else 2))))
    copyColumnNode]

/-- C2: a source column-list replicates to one column-list whose column count
is the number of children listed under it (2 when that listing is empty); the
children of source column `i` are then copied into created column `i`. -/
theorem claim2_column_list_shape (b : SrcBlock)
    (hb : b.data = BlockData.column_list) :
    ∃ node, copyContainer b = [node] ∧
      node.req =
        BlockReq.column_list (if 0 < b.children.length then b.children.length else 2) ∧
      node.children.length =
        (if 0 < b.children.length then b.children.length else 2) ∧
      (∀ t ∈ node.children, t.req = BlockReq.column) ∧
      (∀ i, i < b.children.length →
        ∃ srcChild tgtCol, b.children[i]? = some srcChild ∧
          node.children[i]? = some tgtCol ∧
          tgtCol.children = copyBlockTree srcChild.children) := by
  rw [copyContainer_column_list b hb]
  have hK : 0 < (if 0 < b.children.length then b.children.length else 2) := by
    by_cases h : 0 < b.children.length <;> simp [h]
  refine ⟨_, rfl, ?_, ?_, ?_, ?_⟩
  · simp [TgtNode.req, createColumnListRequest, safeColumnCount_of_pos hK]
  · simp only [TgtNode.children, List.length_append, List.length_map, List.length_take,
      List.length_replicate, safeColumnCount_of_pos hK]
    omega
  · intro t ht
    simp only [TgtNode.children] at ht
    rcases List.mem_append.mp ht with h1 | h2
    · rcases List.mem_map.mp h1 with ⟨c, _, hc⟩
      rw [← hc, copyColumnNode_req]
    · rw [List.eq_of_mem_replicate h2]
      rfl
  · intro i hi
    have hpos : 0 < b.children.length := by omega
    have hKlen : (if 0 < b.children.length then b.children.length else 2)
        = b.children.length := by simp [hpos]
    refine ⟨b.children[i], copyColumnNode b.children[i], by simp [hi], ?_, ?_⟩
    · simp only [TgtNode.children, hKlen, safeColumnCount_of_pos hpos, Nat.min_self,
        Nat.sub_self, List.replicate_zero, List.append_nil, List.take_length]
      rw [List.getElem?_map]
      simp [hi]
    · rw [copyColumnNode_children]

/-- A concrete source column-list whose listing is empty, for the witness. -/
def cexEmptyColumnList : SrcBlock :=
  SrcBlock.mk ("cl-src") BlockData.column_list false []

/-- Witness for C2 at a concrete empty column-list. -/
theorem claim2_column_list_shape_witness :
    ∃ node, copyContainer cexEmptyColumnList = [node] ∧
      node.req =
        BlockReq.column_list
          (if 0 < cexEmptyColumnList.children.length then
            cexEmptyColumnList.children.length else 2) ∧
      node.children.length =
        (if 0 < cexEmptyColumnList.children.length then
          cexEmptyColumnList.children.length else 2) ∧
      (∀ t ∈ node.children, t.req = BlockReq.column) ∧
      (∀ i, i < cexEmptyColumnList.children.length →
        ∃ srcChild tgtCol, cexEmptyColumnList.children[i]? = some srcChild ∧
          node.children[i]? = some tgtCol ∧
          tgtCol.children = copyBlockTree srcChild.children) :=
  claim2_column_list_shape cexEmptyColumnList rfl

/-! ## Tables (claim C3) -/

/-- The drained rows of a source table:
`listAllBlockChildren(...).filter((b) => b.type === "table_row")`. -/
def sourceTableRows (b : SrcBlock) : List SrcBlock :=
  b.children.filter fun c => isTableRowData c.data

/-- The number of cells that converting a source block as a table row
produces (0 unless it is a table row with a cell array). -/
def rowCellCount (c : SrcBlock) : Nat :=
  match c.data with
  | BlockData.table_row cells => (tableRowCells cells).length
  | _ => 0

theorem one_le_tableWidthOf (d : BlockData) : 1 ≤ tableWidthOf d := by
  unfold tableWidthOf
  split
  · split
    · split
      · omega
      · omega
    · omega
  · omega

theorem copyContainer_table (b : SrcBlock) (p : Option TablePayload)
    (hb : b.data = BlockData.table p) :
    copyContainer b = [copyTableNode b] := by
  rw [copyContainer.eq_def, hb]

theorem chunksOf_map_flatten {α β : Type} (g : α → β) (B : Nat) (xs : List α) :
    ((chunksOf B xs).map fun batch => batch.map g).flatten = xs.map g := by
  rw [← List.map_flatten]
  rw [chunksOf_flatten]

theorem copyTableNode_children_flat (b : SrcBlock) :
    (copyTableNode b).children =
      TgtNode.mk (tableInitialRowReq b.data (sourceTableRows b).head?) [] ::
        ((sourceTableRows b).drop 1).map
          (fun r => TgtNode.mk (tableRowToRequest r.data) []) := by
  have h : (copyTableNode b).children =
      TgtNode.mk (tableInitialRowReq b.data (sourceTableRows b).head?) [] ::
        ((chunksOf 50 ((sourceTableRows b).drop 1)).map fun batch =>
          batch.map fun r => TgtNode.mk (tableRowToRequest r.data) []).flatten := rfl
  rw [h,
    chunksOf_map_flatten (fun r => TgtNode.mk (tableRowToRequest r.data) []) 50
      ((sourceTableRows b).drop 1)]

theorem tableRow_req_cells (b r : SrcBlock) (hmem : r ∈ sourceTableRows b)
    (hcells : ∀ c ∈ sourceTableRows b, rowCellCount c = tableWidthOf b.data) :
    ∃ cells, tableRowToRequest r.data = BlockReq.table_row cells ∧
      cells.length = tableWidthOf b.data := by
  have hrow := List.of_mem_filter hmem
  have hcount := hcells r hmem
  cases hd : r.data <;> simp [isTableRowData, hd] at hrow
  case table_row cellsOpt =>
    refine ⟨tableRowCells cellsOpt, by simp [tableRowToRequest], ?_⟩
    simpa [rowCellCount, hd] using hcount

/-- C3: a source table of width `w` with `r` listed rows replicates to one
table request of width `w` (with the source's header flags) embedding exactly
one initial row; the created table ends up with exactly `r` rows — one
synthesized empty row of `w` empty cells when `r = 0` — the rows beyond the
first being appended to the created table in slices of at most 50, and every
created row carrying exactly `w` cells (given that every source row does). -/
theorem claim3_table_shape (b : SrcBlock) (p : Option TablePayload)
    (hb : b.data = BlockData.table p)
    (hcells : ∀ c ∈ sourceTableRows b, rowCellCount c = tableWidthOf b.data) :
    ∃ node, copyContainer b = [node] ∧
      node.req = BlockReq.table (tableWidthOf b.data) (tableHasColumnHeader b.data)
        (tableHasRowHeader b.data)
        [tableInitialRowReq b.data (sourceTableRows b).head?] ∧
      node.children.length = max (sourceTableRows b).length 1 ∧
      (sourceTableRows b = [] →
        node.children.map TgtNode.req =
          [BlockReq.table_row (List.replicate (tableWidthOf b.data) [])]) ∧
      (sourceTableRows b ≠ [] →
        node.children.map TgtNode.req =
          (sourceTableRows b).map fun r => tableRowToRequest r.data) ∧
      (∀ chunk ∈ chunksOf 50 ((sourceTableRows b).drop 1), chunk.length ≤ 50) ∧
      (∀ t ∈ node.children, ∃ cells, t.req = BlockReq.table_row cells ∧
        cells.length = tableWidthOf b.data) := by
  rw [copyContainer_table b p hb]
  have hw := one_le_tableWidthOf b.data
  refine ⟨copyTableNode b, rfl, rfl, ?_, ?_, ?_, ?_, ?_⟩
  · rw [copyTableNode_children_flat]
    simp only [List.length_cons, List.length_map, List.length_drop]
    omega
  · intro hnil
    rw [copyTableNode_children_flat, hnil]
    simp [tableInitialRowReq, emptyTableRowRequest, TgtNode.req,
      show 0 < tableWidthOf b.data by omega]
  · intro hne
    obtain ⟨r, rest, hr⟩ := List.exists_cons_of_ne_nil hne
    have hrmem : r ∈ sourceTableRows b := by
      rw [hr]
      exact List.mem_cons_self r rest
    have hrow := List.of_mem_filter hrmem
    rw [copyTableNode_children_flat, hr]
    simp only [List.drop_succ_cons, List.drop_zero, List.map_cons, List.map_map]
    simp [tableInitialRowReq, hrow, TgtNode.req, Function.comp]
  · intro chunk hc
    exact (chunksOf_size_bounded 50 (by omega) _ _ le_rfl chunk hc).2
  · intro t ht
    rw [copyTableNode_children_flat] at ht
    rcases List.mem_cons.mp ht with h1 | h2
    · subst h1
      simp only [TgtNode.req]
      cases hrows : sourceTableRows b with
      | nil =>
          refine ⟨List.replicate (tableWidthOf b.data) [], ?_, by simp⟩
          simp [hrows, tableInitialRowReq, emptyTableRowRequest,
            show 0 < tableWidthOf b.data by omega]
      | cons r rest =>
          have hrmem : r ∈ sourceTableRows b := by
            rw [hrows]
            exact List.mem_cons_self r rest
          have hrow := List.of_mem_filter hrmem
          obtain ⟨cells, hcreq, hclen⟩ := tableRow_req_cells b r hrmem hcells
          refine ⟨cells, ?_, hclen⟩
          simp [hrows, tableInitialRowReq, hrow, hcreq]
    · rcases List.mem_map.mp h2 with ⟨r, hrd, hrt⟩
      have hrmem : r ∈ sourceTableRows b := List.drop_subset 1 _ hrd
      obtain ⟨cells, hcreq, hclen⟩ := tableRow_req_cells b r hrmem hcells
      refine ⟨cells, ?_, hclen⟩
      rw [← hrt]
      simpa [TgtNode.req] using hcreq

/-- Concrete table payload (width 2, column header) for the witness. -/
def cexTablePayload : TablePayload :=
  TablePayload.mk (some 2) (some true) none

/-- A concrete source table row with two cells. -/
def cexTableRow : SrcBlock :=
  SrcBlock.mk ("row") (BlockData.table_row (some [[], []])) false []

/-- A concrete source table of width 2 with three rows. -/
def cexTable : SrcBlock :=
  SrcBlock.mk ("tbl") (BlockData.table (some cexTablePayload)) true
    [cexTableRow, cexTableRow, cexTableRow]

/-- Witness for C3 at a concrete three-row table of width 2. -/
theorem claim3_table_shape_witness :
    ∃ node, copyContainer cexTable = [node] ∧
      node.req = BlockReq.table (tableWidthOf cexTable.data)
        (tableHasColumnHeader cexTable.data) (tableHasRowHeader cexTable.data)
        [tableInitialRowReq cexTable.data (sourceTableRows cexTable).head?] ∧
      node.children.length = max (sourceTableRows cexTable).length 1 ∧
      (sourceTableRows cexTable = [] →
        node.children.map TgtNode.req =
          [BlockReq.table_row (List.replicate (tableWidthOf cexTable.data) [])]) ∧
      (sourceTableRows cexTable ≠ [] →
        node.children.map TgtNode.req =
          (sourceTableRows cexTable).map fun r => tableRowToRequest r.data) ∧
      (∀ chunk ∈ chunksOf 50 ((sourceTableRows cexTable).drop 1), chunk.length ≤ 50) ∧
      (∀ t ∈ node.children, ∃ cells, t.req = BlockReq.table_row cells ∧
        cells.length = tableWidthOf cexTable.data) :=
  claim3_table_shape cexTable (some cexTablePayload) rfl (by decide)

/-! ## Batched Mutator (blocks.ts `appendBlockChildrenInBatches`, claim C4) -/

/-- One observable step of the batched mutator: a chunk-creation call, or the
inter-chunk suspension (`await wait(delayMs)`). -/
inductive BatchEvent (α : Type) where
  | create (chunk : List α)
  | delayAfter (ms : Nat)
deriving DecidableEq, Repr

/-- `appendBlockChildrenInBatches` of blocks.ts, as its ordered event trace:
the `for (let i = 0; i < children.length; i += batchSize)` loop slices the
input, issues one creation call per slice, and — unless the slice reached the
end (`isLast`) — suspends for `delayMs` when that is positive. -/
def appendBlockChildrenInBatches (batchSize delayMs : Nat) : List α → List (BatchEvent α)
  | [] => []
  | x :: xs =>
      let batch := x :: xs.take (batchSize - 1)
      let rest := xs.drop (batchSize - 1)
      BatchEvent.create batch ::
        (if rest.isEmpty then []
         else
           (if 0 < delayMs then [BatchEvent.delayAfter delayMs] else []) ++
             appendBlockChildrenInBatches batchSize delayMs rest)
termination_by l => l.length
decreasing_by
  simp only [List.length_cons, List.length_drop]
  omega

/-- Reference trace, written from the claim: one creation call per chunk, in
order, the (optional, positive) delay after every chunk except the final
one. -/
def delayedEvents (delayMs : Nat) : List (List α) → List (BatchEvent α)
  | [] => []
  | [c] => [BatchEvent.create c]
  | c :: c2 :: cs =>
      BatchEvent.create c ::
        ((if 0 < delayMs then [BatchEvent.delayAfter delayMs] else []) ++
          delayedEvents delayMs (c2 :: cs))

theorem appendBlockChildrenInBatches_eq_delayed_bounded (batchSize delayMs : Nat)
    (hB : 1 ≤ batchSize) :
    ∀ (n : Nat) (l : List α), l.length ≤ n →
      appendBlockChildrenInBatches batchSize delayMs l =
        delayedEvents delayMs (chunksOf batchSize l) := by
  intro n
  induction n with
  | zero =>
      intro l h
      have hl : l = [] := by
        cases l with
        | nil => rfl
        | cons x xs => simp at h
      subst hl
      rw [appendBlockChildrenInBatches]
      rw [chunksOf]
      rfl
  | succ n ih =>
      intro l h
      cases l with
      | nil =>
          rw [appendBlockChildrenInBatches]
          rw [chunksOf]
          rfl
      | cons x xs =>
          rw [appendBlockChildrenInBatches, chunksOf]
          rw [ih (xs.drop (batchSize - 1)) (by simp at h ⊢; omega)]
          cases hrest : xs.drop (batchSize - 1) with
          | nil =>
              simp [hrest, chunksOf, delayedEvents]
          | cons y ys =>
              rw [chunksOf]
              simp only [hrest, List.isEmpty_cons, delayedEvents]
              rfl

/-- C4: for chunk size `B ≥ 1`, the mutator issues exactly `⌈N / B⌉` creation
calls whose chunk inputs concatenate, in call order, back to the input, each
chunk non-empty and of size at most `B`, and the (optional, positive) delay
follows every chunk except the final one. -/
theorem claim4_batched_mutator (batchSize delayMs : Nat) (l : List α)
    (hB : 1 ≤ batchSize) :
    appendBlockChildrenInBatches batchSize delayMs l =
      delayedEvents delayMs (chunksOf batchSize l) ∧
    (chunksOf batchSize l).length = (l.length + batchSize - 1) / batchSize ∧
    (chunksOf batchSize l).flatten = l ∧
    (∀ c ∈ chunksOf batchSize l, 0 < c.length ∧ c.length ≤ batchSize) :=
  ⟨appendBlockChildrenInBatches_eq_delayed_bounded batchSize delayMs hB l.length l le_rfl,
   chunksOf_length_bounded batchSize hB l.length l le_rfl,
   chunksOf_flatten batchSize l,
   chunksOf_size_bounded batchSize hB l.length l le_rfl⟩

/-- Witness for C4: seven items, chunk size 3, delay 350 ms. -/
theorem claim4_batched_mutator_witness :
    1 ≤ 3 ∧
    (appendBlockChildrenInBatches 3 350 [0, 1, 2, 3, 4, 5, 6] =
      delayedEvents 350 (chunksOf 3 [0, 1, 2, 3, 4, 5, 6]) ∧
    (chunksOf 3 [0, 1, 2, 3, 4, 5, 6]).length = (7 + 3 - 1) / 3 ∧
    (chunksOf 3 [0, 1, 2, 3, 4, 5, 6]).flatten = [0, 1, 2, 3, 4, 5, 6] ∧
    (∀ c ∈ chunksOf 3 [0, 1, 2, 3, 4, 5, 6], 0 < c.length ∧ c.length ≤ 3)) :=
  ⟨by omega, claim4_batched_mutator 3 350 [0, 1, 2, 3, 4, 5, 6] (by omega)⟩

/-! ## Positional pairing of batch responses (claim C6) -/

/-- The `for (let j = 0; j < batch.length; j++)` walk of `copyBlockTree`
(lines 596–604): pair each source block of the request chunk with the
response entry at the same position; `if (!createdBlock) continue;` skips a
source block whose positional response entry is missing; response entries
beyond the chunk are never read. -/
def walkCreatedResults {α β : Type} : List α → List β → List (α × β)
  | [], _ => []
  | _ :: batchRest, [] => walkCreatedResults batchRest []
  | b :: batchRest, c :: createdRest => (b, c) :: walkCreatedResults batchRest createdRest

/-- The outcome of one response walk for the surrounding job: the walk of
`copyBlockTree` has no failure path — it always completes with the pairs it
found (a `Structural` failure would be an `Except.error`). -/
def walkCreatedOutcome {α β : Type} (batch : List α) (created : List β) :
    Except String (List (α × β)) :=
  Except.ok (walkCreatedResults batch created)

/-- Counterexample to C6: a request chunk of two source blocks answered by a
single created block.  The claim says a length mismatch is treated as a
Structural failure of the job; instead the walk completes normally, silently
pairing only the first source block and skipping the second. -/
theorem claim6_cex_mismatch_is_silently_skipped :
    ([10, 11] : List Nat).length ≠ ([5] : List Nat).length ∧
    walkCreatedOutcome [10, 11] [(5 : Nat)] = Except.ok [(10, 5)] ∧
    ∀ msg : String, walkCreatedOutcome [10, 11] [(5 : Nat)] ≠ Except.error msg := by
  refine ⟨by decide, rfl, ?_⟩
  intro msg h
  exact nomatch h

/-- C6 amended: the walk pairs request chunk and response strictly by
position — it is exactly the positional zip — and never raises: on a length
mismatch the unmatched source blocks are silently skipped (their subtrees are
not recursed into) and surplus response entries are ignored. -/
theorem claim6_amended_walk_is_positional_zip {α β : Type}
    (batch : List α) (created : List β) :
    walkCreatedOutcome batch created = Except.ok (batch.zip created) := by
  unfold walkCreatedOutcome
  congr 1
  induction batch generalizing created with
  | nil => rw [walkCreatedResults]; rfl
  | cons b bs ih =>
      cases created with
      | nil => rw [walkCreatedResults, ih]; simp
      | cons c cs => rw [walkCreatedResults, ih]; rfl

/-! ## Paginator drain (client.ts `listAllBlockChildren`, claim C10) -/

/-- One entry of a listing response: a block object carrying a `type` tag, or
a partial object without one (`'type' in r` fails). -/
inductive ListedResult (α : Type) where
  | typed (item : α)
  | untyped
deriving DecidableEq, Repr

/-- One page of a listing response. -/
structure ListPage (α : Type) where
  results : List (ListedResult α)
  has_more : Bool
  next_cursor : Option String
deriving DecidableEq, Repr

/-- The entries the drain keeps of one page:
`results.filter((r) => typeof r === "object" && r !== null && "type" in r)`. -/
def typedResults {α : Type} (rs : List (ListedResult α)) : List α :=
  rs.filterMap fun r =>
    match r with
    | ListedResult.typed item => some item
    | ListedResult.untyped => none

/-- JavaScript truthiness of the loop guard `while (cursor)` for a
`string | undefined` cursor: `undefined` and the empty string are falsy. -/
def jsTruthyCursor : Option String → Bool
  | none => false
  | some s => !s.isEmpty

/-- The `do … while (cursor)` drain of `listAllBlockChildren`: fetch the page
at the current cursor, keep its typed results, compute
`cursor = response.has_more ? response.next_cursor ?? undefined : undefined`,
and loop while that is truthy.  `fetch` abstracts the remote listing (page as
a function of the requested start cursor); `fuel` bounds the number of page
fetches — every theorem below supplies enough for the pages it visits, and a
remote feeding endlessly truthy cursors would genuinely never terminate. -/
def listAllBlockChildren {α : Type} (fetch : Option String → ListPage α) :
    Nat → Option String → List α
  | 0, _ => []
  | fuel + 1, cursor =>
      let response := fetch cursor
      let batch := typedResults response.results
      let nextCursor : Option String :=
        if response.has_more then response.next_cursor else none
      if jsTruthyCursor nextCursor then
        batch ++ listAllBlockChildren fetch fuel nextCursor
      else
        batch

/-- A two-page listing whose first page reports `has_more = true` with an
empty-string `next_cursor` (a non-null cursor). -/
def cexPages : Option String → ListPage Nat
  | none => ListPage.mk [ListedResult.typed 1, ListedResult.untyped] true (some (""))
  | some _ => ListPage.mk [ListedResult.typed 2] false none

/-- Counterexample to C10: the first page has `has_more = true` and a
non-null next cursor, yet the drain stops after the first page (the item of
the second page is never collected), because the empty-string cursor is falsy
in the `while (cursor)` guard. -/
theorem claim10_cex_empty_cursor_stops_drain :
    (cexPages none).has_more = true ∧
    (cexPages none).next_cursor = some ("") ∧
    (cexPages none).next_cursor ≠ none ∧
    listAllBlockChildren cexPages 5 none = [1] := by
  refine ⟨rfl, rfl, by decide, by decide⟩

/-- C10 amended: one drain step collects exactly the typed results of the
fetched page (results without a type tag are dropped), and continues — from
the reported next cursor — iff the page reports `has_more = true` and a
non-null, non-empty next cursor; otherwise the drain ends normally with what
was collected, in particular on `has_more = true` with a null (or
empty-string) cursor. -/
theorem claim10_amended_drain_step {α : Type} (fetch : Option String → ListPage α)
    (fuel : Nat) (cursor : Option String) :
    listAllBlockChildren fetch (fuel + 1) cursor =
      typedResults (fetch cursor).results ++
        (match (fetch cursor).has_more, (fetch cursor).next_cursor with
         | true, some c =>
             if c = "" then [] else listAllBlockChildren fetch fuel (some c)
         | true, none => []
         | false, _ => []) := by
  rw [listAllBlockChildren]
  cases hm : (fetch cursor).has_more with
  | false =>
      simp [hm, jsTruthyCursor]
  | true =>
      cases hc : (fetch cursor).next_cursor with
      | none => simp [hm, hc, jsTruthyCursor]
      | some c =>
          by_cases hce : c = ""
          · simp [hm, hc, hce, jsTruthyCursor, String.isEmpty_iff]
          · simp [hm, hc, hce, jsTruthyCursor, String.isEmpty_iff]

/-! ## Resilient Invoker (errors.ts, claim C5) -/

/-- A failure of a remote call, as the error introspection interface exposes
it: the machine-readable code and the HTTP-like status.  (The retry-after
hints and the computed backoff delays only decide how long the caller
suspends, not which path the retry loop takes, and no claim is about their
values; they are therefore not modelled.  Failures are client-library errors
— `isNotionClientError` holds of everything the wrapped calls throw.) -/
structure NotionFailure where
  code : String
  status : Option Nat
deriving DecidableEq, Repr

/-- The outcome of one scripted attempt of the wrapped zero-argument
operation. -/
inductive CallResult (α : Type) where
  | ok (v : α)
  | err (e : NotionFailure)
deriving DecidableEq, Repr

/-- The retry policy fields of `DEFAULT_RETRY_OPTIONS`. -/
structure RetryPolicy where
  maxRetries : Nat
  baseDelayMs : Nat
  maxDelayMs : Nat
  retryAfterJitterMs : Nat
deriving DecidableEq, Repr

/-- `DEFAULT_RETRY_OPTIONS` of errors.ts. -/
def defaultRetryPolicy : RetryPolicy :=
  RetryPolicy.mk 4 500 10000 250

/-- `RETRYABLE_API_CODES` of errors.ts. -/
def RETRYABLE_API_CODES : List String :=
  ["rate_limited", "internal_server_error", "service_unavailable"]

/-- `RETRYABLE_CLIENT_CODES` of errors.ts. -/
def RETRYABLE_CLIENT_CODES : List String :=
  ["notionhq_client_request_timeout", "notionhq_client_response_error"]

/-- `isRetryableNotionError` of errors.ts: a retryable code, or a status that
is truthy and either 429 or of the 5xx-and-above class. -/
def isRetryableNotionError (e : NotionFailure) : Bool :=
  if RETRYABLE_API_CODES.contains e.code then true
  else if RETRYABLE_CLIENT_CODES.contains e.code then true
  else
    match e.status with
    | some s => decide (s ≠ 0 ∧ (s = 429 ∨ 500 ≤ s))
    | none => false

/-- The `errorMessages` code → message table of errors.ts. -/
def errorMessages : List (String × String) :=
  [("unauthorized",
    "Invalid API token. Run `onotion auth login` to set a valid token."),
   ("restricted_resource",
    "This integration does not have access to the requested resource. Check your integration permissions in Notion."),
   ("object_not_found",
    "The requested page, database, or block was not found. Verify the ID is correct and the integration has access."),
   ("rate_limited",
    "Rate limited by Notion API. Please wait a moment and try again."),
   ("invalid_json", "Invalid request format."),
   ("validation_error", "Invalid request parameters."),
   ("conflict_error",
    "Conflict with current state. The resource may have been modified."),
   ("internal_server_error",
    "Notion API internal error. Please try again later."),
   ("service_unavailable",
    "Notion API is temporarily unavailable. Please try again later."),
   ("notionhq_client_request_timeout",
    "Request timed out. Check your internet connection."),
   ("notionhq_client_response_error", "Invalid response from Notion API.")]

/-- `getUserFriendlyMessage` of errors.ts:
`errorMessages[code] || fallback`. -/
def getUserFriendlyMessage (code : String) : String :=
  match errorMessages.lookup code with
  | some m => m
  | none => "Notion API error: " ++ code

/-- The result of `withNotionRetry`: the operation's value, or the
classified `OverNotionError` (stable code, user-facing message, original
failure). -/
inductive RetryOutcome (α : Type) where
  | ok (v : α)
  | failed (code : String) (message : String) (original : NotionFailure)
deriving DecidableEq, Repr

/-- The retry loop of `withNotionRetry`, over a script of attempt outcomes.
`budget = maxRetries - retryCount` counts the retries still allowed, so
`budget = 0` is the loop's `retryCount >= maxRetries`; a failure that is not
retryable, or one arriving with the budget exhausted, is classified and
thrown (`new OverNotionError(error.code, getUserFriendlyMessage(error.code),
error)`); otherwise the loop suspends for the computed backoff and tries
again. -/
def withNotionRetryGo {α : Type} (script : Nat → CallResult α) :
    Nat → Nat → RetryOutcome α
  | attempt, budget =>
      match script attempt with
      | CallResult.ok v => RetryOutcome.ok v
      | CallResult.err e =>
          match budget with
          | 0 => RetryOutcome.failed e.code (getUserFriendlyMessage e.code) e
          | budget' + 1 =>
              if isRetryableNotionError e then
                withNotionRetryGo script (attempt + 1) budget'
              else
                RetryOutcome.failed e.code (getUserFriendlyMessage e.code) e

/-- `withNotionRetry` of errors.ts: run the loop from the first attempt with
the policy's full retry budget. -/
def withNotionRetry {α : Type} (script : Nat → CallResult α)
    (policy : RetryPolicy) : RetryOutcome α :=
  withNotionRetryGo script 0 policy.maxRetries

/-- A script failing every attempt with an unmapped, non-retryable code. -/
def cexFatalScript : Nat → CallResult Nat :=
  fun _ => CallResult.err (NotionFailure.mk ("bogus_code") none)

/-- Counterexample to C5: an unmapped code is classified with the message
`Notion API error: <code>`, not the claimed `unknown error: <code>`. -/
theorem claim5_cex_unmapped_message :
    withNotionRetry cexFatalScript defaultRetryPolicy =
      RetryOutcome.failed ("bogus_code") ("Notion API error: bogus_code")
        (NotionFailure.mk ("bogus_code") none) ∧
    ("Notion API error: bogus_code" : String) ≠ "unknown error: bogus_code" := by
  refine ⟨by decide, by decide⟩

theorem withNotionRetryGo_spec {α : Type} (script : Nat → CallResult α) :
    ∀ (budget attempt : Nat), ∃ n, n ≤ budget ∧
      (∀ i, i < n → ∃ e, script (attempt + i) = CallResult.err e ∧
        isRetryableNotionError e = true) ∧
      ((∃ v, script (attempt + n) = CallResult.ok v ∧
          withNotionRetryGo script attempt budget = RetryOutcome.ok v) ∨
       (∃ e, script (attempt + n) = CallResult.err e ∧
          (isRetryableNotionError e = false ∨ n = budget) ∧
          withNotionRetryGo script attempt budget =
            RetryOutcome.failed e.code (getUserFriendlyMessage e.code) e)) := by
  intro budget
  induction budget with
  | zero =>
      intro attempt
      refine ⟨0, le_rfl, by omega, ?_⟩
      rw [withNotionRetryGo]
      cases hs : script attempt with
      | ok v => exact Or.inl ⟨v, by simpa [hs], rfl⟩
      | err e => exact Or.inr ⟨e, by simpa [hs], Or.inr rfl, rfl⟩
  | succ budget ih =>
      intro attempt
      rw [withNotionRetryGo]
      cases hs : script attempt with
      | ok v =>
          refine ⟨0, by omega, by omega, ?_⟩
          exact Or.inl ⟨v, by simpa [hs], rfl⟩
      | err e =>
          cases hr : isRetryableNotionError e with
          | false =>
              refine ⟨0, by omega, by omega, ?_⟩
              exact Or.inr ⟨e, by simpa [hs], Or.inl hr, by simp [hr]⟩
          | true =>
              obtain ⟨n, hn, hretries, houtcome⟩ := ih (attempt + 1)
              refine ⟨n + 1, by omega, ?_, ?_⟩
              · intro i hi
                cases i with
                | zero => exact ⟨e, by simpa [hs], hr⟩
                | succ j =>
                    obtain ⟨e2, he2, hr2⟩ := hretries j (by omega)
                    refine ⟨e2, ?_, hr2⟩
                    rw [show attempt + (j + 1) = attempt + 1 + j by omega]
                    exact he2
              · rw [show attempt + (n + 1) = attempt + 1 + n by omega]
                simp only [hr, if_true]
                rcases houtcome with ⟨v, hv, hout⟩ | ⟨e2, he2, hcond, hout⟩
                · exact Or.inl ⟨v, hv, hout⟩
                · refine Or.inr ⟨e2, he2, ?_, hout⟩
                  rcases hcond with h | h
                  · exact Or.inl h
                  · exact Or.inr (by omega)

/-- C5 amended: the Invoker retries iff the failure is classified retryable —
rate-limiting or a 5xx-class status, the retryable codes, a transport fault —
and every propagated failure (a non-retryable one at once, a retryable one
once the budget of `maxRetries` is spent) is the classified error carrying
the stable code and the message of the fixed table, never the raw failure;
an unmapped code gets the generic `Notion API error: <code>` message. -/
theorem claim5_amended_invoker (script : Nat → CallResult α) (policy : RetryPolicy) :
    (∃ n, n ≤ policy.maxRetries ∧
      (∀ i, i < n → ∃ e, script i = CallResult.err e ∧
        isRetryableNotionError e = true) ∧
      ((∃ v, script n = CallResult.ok v ∧
          withNotionRetry script policy = RetryOutcome.ok v) ∨
       (∃ e, script n = CallResult.err e ∧
          (isRetryableNotionError e = false ∨ n = policy.maxRetries) ∧
          withNotionRetry script policy =
            RetryOutcome.failed e.code (getUserFriendlyMessage e.code) e))) ∧
    (∀ c m, errorMessages.lookup c = some m → getUserFriendlyMessage c = m) ∧
    (∀ c, errorMessages.lookup c = none →
      getUserFriendlyMessage c = "Notion API error: " ++ c) := by
  refine ⟨?_, ?_, ?_⟩
  · obtain ⟨n, hn, hretries, houtcome⟩ :=
      withNotionRetryGo_spec script policy.maxRetries 0
    exact ⟨n, hn, by simpa using hretries, by simpa using houtcome⟩
  · intro c m hm
    simp [getUserFriendlyMessage, hm]
  · intro c hm
    simp [getUserFriendlyMessage, hm]

/-! ## Rich-text normalization (claim C7) -/

/-- Reference per-run conversion, written from the amended claim: a text run
copied verbatim (content, link, recognized style flags, color), an equation
run copied verbatim, and a run of any other kind degraded to a plain text
run holding its already-rendered display text when that text is non-empty —
and dropped when its display text is empty or missing. -/
def specNormalizeRun : RichTextItem → Option RichTextReq
  | RichTextItem.text content link ann =>
      some (RichTextReq.text content link (normalizeAnnotations ann))
  | RichTextItem.equation expr ann =>
      some (RichTextReq.equation expr (normalizeAnnotations ann))
  | RichTextItem.other _ plain _ =>
      match plain with
      | some s => if 0 < s.length then some (RichTextReq.text s none none) else none
      | none => none

/-- A mention run whose rendered display text is empty. -/
def cexEmptyMention : RichTextItem :=
  RichTextItem.other ("mention") (some ("")) none

/-- Counterexample to C7: a non-text, non-equation run with empty display
text is dropped entirely — the output has no degraded text run for it, so not
every such run is degraded to a plain text run of its display text. -/
theorem claim7_cex_empty_mention_dropped :
    toRichTextRequest [cexEmptyMention] = [] ∧
    ([cexEmptyMention] : List RichTextItem).length = 1 ∧
    ∀ link ann, (RichTextReq.text ("") link ann) ∉ toRichTextRequest [cexEmptyMention] := by
  refine ⟨rfl, rfl, ?_⟩
  intro link ann h
  rw [show toRichTextRequest [cexEmptyMention] = [] from rfl] at h
  exact nomatch h

/-- C7 amended: normalization maps the runs in order — text and equation runs
verbatim, any other run kind degraded to a plain text run of its non-empty
display text and dropped when that text is empty or missing. -/
theorem claim7_amended_rich_text (items : List RichTextItem) :
    toRichTextRequest items = items.filterMap specNormalizeRun := by
  induction items with
  | nil => rfl
  | cons item rest ih =>
      cases item with
      | text content link ann =>
          rw [toRichTextRequest, ih]
          rfl
      | equation expr ann =>
          rw [toRichTextRequest, ih]
          rfl
      | other kind plain ann =>
          cases plain with
          | none =>
              rw [toRichTextRequest, ih]
              rfl
          | some s =>
              by_cases hs : 0 < s.length
              · rw [toRichTextRequest, if_pos hs, ih]
                simp [specNormalizeRun, hs]
              · rw [toRichTextRequest, if_neg hs, ih]
                simp [specNormalizeRun, hs]

/-! ## Media normalization (claim C8) -/

/-- An internally hosted media payload: no external URL, only the service's
own (temporary) file URL. -/
def cexInternalMedia : MediaPayload :=
  MediaPayload.mk none (some ("https://files.example/internal-asset")) [] none

/-- Counterexample to C8: an internally hosted media block — no external URL
— does not normalize to the empty payload; the internal file URL is reused as
an external URL, so a recreatable payload is produced although the media is
not externally hosted. -/
theorem claim8_cex_internal_media_not_empty :
    cexInternalMedia.external_url = none ∧
    normalizeMediaBlock (some cexInternalMedia) =
      MediaNormalized.externalPayload ("https://files.example/internal-asset") none none ∧
    normalizeMediaBlock (some cexInternalMedia) ≠ MediaNormalized.empty := by
  refine ⟨rfl, rfl, ?_⟩
  intro h
  exact nomatch h

/-- C8 amended: normalization selects the external URL when present as a
string — never falling back to the file URL in that case, even when the
external URL is empty — and otherwise the internally hosted file URL,
reusing it as the external URL; it yields a recreatable external payload
exactly when the selected URL exists and is non-empty, and the empty
payload when the selected URL is absent or the empty string. -/
theorem claim8_amended_media (v : MediaPayload) :
    (normalizeMediaBlock (some v) = MediaNormalized.empty ↔
      selectedMediaUrl v = none ∨ selectedMediaUrl v = some ("")) ∧
    (∀ u, selectedMediaUrl v = some u → u ≠ "" →
      ∃ cap nm, normalizeMediaBlock (some v) = MediaNormalized.externalPayload u cap nm) ∧
    (∀ u, v.external_url = some u → selectedMediaUrl v = some u) ∧
    (v.external_url = none → selectedMediaUrl v = v.file_url) ∧
    (v.external_url = some ("") →
      normalizeMediaBlock (some v) = MediaNormalized.empty) := by
  have hsel_ext : ∀ u, v.external_url = some u → selectedMediaUrl v = some u := by
    intro u he
    simp [selectedMediaUrl, he]
  have hempty : ∀ u : String, u ≠ "" → u.isEmpty = false := by
    intro u hu
    cases hb : u.isEmpty with
    | false => rfl
    | true => exact absurd ((String.isEmpty_iff u).mp hb) hu
  refine ⟨?_, ?_, hsel_ext, ?_, ?_⟩
  · constructor
    · intro h
      cases hsel : selectedMediaUrl v with
      | none => exact Or.inl rfl
      | some u =>
          by_cases hu : u = ""
          · subst hu
            exact Or.inr rfl
          · exfalso
            simp [normalizeMediaBlock, hsel, hempty u hu] at h
    · intro h
      rcases h with h | h
      · simp [normalizeMediaBlock, h]
      · simp [normalizeMediaBlock, h]
        rfl
  · intro u hsel hu
    refine ⟨if 0 < (toRichTextRequest v.caption).length then
        some (toRichTextRequest v.caption) else none,
      (match v.name with
       | some n => if 0 < n.length then some n else none
       | none => none), ?_⟩
    simp [normalizeMediaBlock, hsel, hempty u hu]
  · intro he
    simp [selectedMediaUrl, he]
  · intro he
    rw [show normalizeMediaBlock (some v) =
        (match selectedMediaUrl v with
         | none => MediaNormalized.empty
         | some url =>
             if url.isEmpty then MediaNormalized.empty
             else
               MediaNormalized.externalPayload url
                 (if 0 < (toRichTextRequest v.caption).length then
                   some (toRichTextRequest v.caption) else none)
                 (match v.name with
                  | some n => if 0 < n.length then some n else none
                  | none => none)) from rfl]
    rw [hsel_ext ("") he]
    rfl

/-! ## Unsupported blocks and synced blocks (claim C9) -/

/-- A synced block whose `synced_from` references a block outside the copied
subtree (the duplicate form of a synced block). -/
def cexSyncedPayload : SyncedPayload :=
  SyncedPayload.mk (some (SyncedFrom.mk (some ("original-block-id"))))

/-- Counterexample to C9: a synced block referencing a block outside the
copied subtree is not replaced by a placeholder text block — it is recreated
as a synced block whose `synced_from` still points at the original. -/
theorem claim9_cex_synced_block_not_placeholder :
    blockToCreateRequest (BlockData.synced_block (some cexSyncedPayload)) =
      BlockReq.synced_block (some ("original-block-id")) ∧
    ∀ msg : String,
      blockToCreateRequest (BlockData.synced_block (some cexSyncedPayload)) ≠
        placeholderBlock msg := by
  refine ⟨rfl, ?_⟩
  intro msg h
  rw [show blockToCreateRequest (BlockData.synced_block (some cexSyncedPayload)) =
      BlockReq.synced_block (some ("original-block-id")) from rfl] at h
  exact nomatch h

/-- C9 amended: embedded child pages and child databases, the literal
`unsupported` kind and every type tag the normalizer does not recognize are
each replaced by a single placeholder text block whose fixed message names
the type; synced blocks, however, are not placeholdered — they are recreated
as synced blocks, keeping the `synced_from` reference (pointing at the
original block) when one is present and recreating an original synced block
with `synced_from: null` otherwise. -/
theorem claim9_amended_placeholders :
    blockToCreateRequest BlockData.child_page =
      placeholderBlock ("Unsupported block type: child_page") ∧
    blockToCreateRequest BlockData.child_database =
      placeholderBlock ("Unsupported block type: child_database") ∧
    (∀ tag, blockToCreateRequest (BlockData.unsupportedOther tag) =
      placeholderBlock ("Unsupported block type: " ++ tag)) ∧
    (∀ p, blockToCreateRequest (BlockData.synced_block p) =
      BlockReq.synced_block (normalizeSyncedBlock p) ∧
      ∀ msg, blockToCreateRequest (BlockData.synced_block p) ≠ placeholderBlock msg) := by
  refine ⟨rfl, rfl, fun tag => rfl, ?_⟩
  intro p
  refine ⟨rfl, ?_⟩
  intro msg h
  rw [show blockToCreateRequest (BlockData.synced_block p) =
      BlockReq.synced_block (normalizeSyncedBlock p) from rfl] at h
  exact nomatch h
